import Mathlib

/-!
Verification of the query-routing and fact-extraction core of `module7/app.py`.

The Python functions `_looks_like_kb_query`, `_normalize_store_content`,
`_extract_memory_entries`, `_answer_from_memory`, `determine_action`,
`is_valid_kb_id` and `run_kb_agent` are shallowly embedded over `List Char`
(one Lean `Char` per Python character).  External collaborators (the LLM and
the memory service) are modelled as explicit inputs: each embedded function
takes the text the collaborator would return, and reports the calls it makes
as a trace, so that "no external call happens on this path" is a provable
statement.

Python's `str.lower`, `str.strip` and the regex class `\s` are modelled on
the ASCII range (the repository only ever feeds ASCII constants through
them); `str.splitlines` is modelled on its documented line boundaries.  The
regular expressions of `_answer_from_memory` all have the shape
`lit (\s+ lit)* \s+ ([^\n".]+)`; `searchPat` implements `re.search` for
exactly that shape, with Python's leftmost-then-greedy backtracking
semantics.  `str.replace` is modelled for non-empty patterns (the only use
is the constant pattern "oktober").
-/

namespace Module7

/-- ASCII lowering, the relevant fragment of Python `str.lower`. -/
def lowerC : Char → Char
  | 'A' => 'a' | 'B' => 'b' | 'C' => 'c' | 'D' => 'd' | 'E' => 'e'
  | 'F' => 'f' | 'G' => 'g' | 'H' => 'h' | 'I' => 'i' | 'J' => 'j'
  | 'K' => 'k' | 'L' => 'l' | 'M' => 'm' | 'N' => 'n' | 'O' => 'o'
  | 'P' => 'p' | 'Q' => 'q' | 'R' => 'r' | 'S' => 's' | 'T' => 't'
  | 'U' => 'u' | 'V' => 'v' | 'W' => 'w' | 'X' => 'x' | 'Y' => 'y'
  | 'Z' => 'z'
  | c => c

/-- Whitespace as stripped by Python `str.strip` / matched by regex `\s`
(ASCII fragment). -/
def pySpace (c : Char) : Bool :=
  c == ' ' || c == '\t' || c == '\n' || c == '\r' || c == '\x0b' || c == '\x0c'

/-- Python `str.lower` over a whole string. -/
def pyLower (l : List Char) : List Char := l.map lowerC

/-- Python `str.lstrip()`. -/
def pyLstrip (l : List Char) : List Char := l.dropWhile pySpace

/-- Python `str.strip()`. -/
def pyStrip (l : List Char) : List Char :=
  ((l.dropWhile pySpace).reverse.dropWhile pySpace).reverse

/-- String literal to character list. -/
def str (s : String) : List Char := s.data

/-- Case-sensitive prefix test (Python `str.startswith`). -/
def isPreL : List Char → List Char → Bool
  | [], _ => true
  | _ :: _, [] => false
  | a :: as, b :: bs => a == b && isPreL as bs

/-- Python substring containment `needle in hay` (case-sensitive). -/
def isSub (n : List Char) : List Char → Bool
  | [] => isPreL n []
  | h :: t => isPreL n (h :: t) || isSub n t

/-- Drop an exact literal from the front, returning the remainder on success. -/
def dropLitE : List Char → List Char → Option (List Char)
  | [], s => some s
  | _ :: _, [] => none
  | p :: ps, c :: cs => if p == c then dropLitE ps cs else none

/-- Drop a literal from the front case-insensitively (a literal under
`re.IGNORECASE`). -/
def dropLitCI : List Char → List Char → Option (List Char)
  | [], s => some s
  | _ :: _, [] => none
  | p :: ps, c :: cs => if lowerC p == lowerC c then dropLitCI ps cs else none

/-- Remainder after the first occurrence of `marker`, i.e. Python
`s.split(marker, 1)[1]` guarded by `marker in s`. -/
def afterFirst (marker : List Char) : List Char → Option (List Char)
  | [] => dropLitE marker []
  | c :: t =>
    match dropLitE marker (c :: t) with
    | some r => some r
    | none => afterFirst marker t

/-- Python `s.replace(pat, rep)` with fuel (structural recursion; the fuel
`s.length` always suffices for the non-empty patterns this file uses). -/
def pyReplaceF (pat rep : List Char) : Nat → List Char → List Char
  | _, [] => []
  | 0, s => s
  | fuel + 1, c :: t =>
    match dropLitE pat (c :: t) with
    | some r => rep ++ pyReplaceF pat rep fuel r
    | none => c :: pyReplaceF pat rep fuel t

/-- Python `s.replace(pat, rep)` for a non-empty pattern: replace every
non-overlapping occurrence, scanning left to right. -/
def pyReplace (pat rep s : List Char) : List Char := pyReplaceF pat rep s.length s

/-- Line-break characters of Python `str.splitlines`. -/
def lineBreak (c : Char) : Bool :=
  c == '\n' || c == '\r' || c == '\x0b' || c == '\x0c' || c == '\x1c' ||
  c == '\x1d' || c == '\x1e' || c == '\x85' || c == '\u2028' || c == '\u2029'

/-- Worker for `splitlines`; `acc` holds the current line reversed. -/
def splitlinesGo (acc : List Char) : List Char → List (List Char)
  | [] => if acc = [] then [] else [acc.reverse]
  | '\r' :: '\n' :: rest => acc.reverse :: splitlinesGo [] rest
  | c :: rest =>
    if lineBreak c then acc.reverse :: splitlinesGo [] rest
    else splitlinesGo (c :: acc) rest

/-- Python `str.splitlines()`: split at line boundaries, no trailing empty
line for a trailing terminator. -/
def splitlines (l : List Char) : List (List Char) := splitlinesGo [] l

/- ------------------------------------------------------------------ -/
/- Intent classifier: `_looks_like_kb_query` and `determine_action`.   -/
/- ------------------------------------------------------------------ -/

/-- The fixed keyword set of `_looks_like_kb_query` (app.py lines 137-141). -/
def kb_keywords : List (List Char) :=
  [str "remember", str "store", str "save", str "record", str "note that",
   str "what did i tell", str "what do you remember", str "recall", str "retrieve",
   str "my name is", str "i live", str "my birthday", str "where do i live",
   str "who am i"]

/-- `_looks_like_kb_query` (app.py lines 135-142). -/
def looks_like_kb_query (query : List Char) : Bool :=
  kb_keywords.any (fun k => isSub k (pyLower query))

/-- External calls made by the embedded routines. -/
inductive Call where
  | useLlm : Call
  | memStore : List Char → Call
  | memRetrieve : Call
  | summarize : Call
deriving DecidableEq

/-- `determine_action` (app.py lines 206-220).  `llmResp` is the text the
`use_llm` fallback would return; the second component records the external
calls that were actually made. -/
def determine_action (llmResp : List Char) (query : List Char) :
    List Char × List Call :=
  if looks_like_kb_query query then
    (str "knowledgebase", [])
  else
    let action_text := pyStrip (pyLower llmResp)
    (if action_text = str "knowledgebase" then str "knowledgebase" else str "teacher",
     [Call.useLlm])

/- ------------------------------------------------------------------ -/
/- Content normalizer: `_normalize_store_content`.                     -/
/- ------------------------------------------------------------------ -/

/-- The prefix list of `_normalize_store_content` (app.py lines 147-156),
in source order. -/
def store_prefixes : List (List Char) :=
  [str "remember that ", str "remember ", str "save that ", str "save ",
   str "store that ", str "store ", str "note that ", str "record that "]

/-- The prefix loop of `_normalize_store_content`: first matching prefix is
stripped from the original-cased text and the remainder re-stripped. -/
def normGo (text : List Char) : List (List Char) → List Char
  | [] => text
  | p :: ps =>
    if isPreL p (pyLower text) then pyStrip (text.drop p.length)
    else normGo text ps

/-- `_normalize_store_content` (app.py lines 144-161). -/
def normalize_store_content (raw : List Char) : List Char :=
  normGo (pyStrip raw) store_prefixes

/- ------------------------------------------------------------------ -/
/- Result parser: `_extract_memory_entries`.                           -/
/- ------------------------------------------------------------------ -/

/-- The loop body of `_extract_memory_entries` (app.py lines 169-182),
with the growing `entries` list passed explicitly. -/
def extractGo : List (List Char) → List (List Char) → List (List Char)
  | [], entries => entries
  | line :: rest, entries =>
    match afterFirst (str "Content Preview:") line with
    | none => extractGo rest entries
    | some after =>
      let snippet := pyStrip after
      match afterFirst (str "\"content\":") snippet with
      | some part0 =>
        let part1 := pyLstrip part0
        let part := match part1 with
          | '"' :: t => t
          | _ => part1
        if part.contains '"' then
          extractGo rest (entries ++ [pyStrip (part.takeWhile (fun c => c != '"'))])
        else if snippet = [] then extractGo rest entries
        else extractGo rest (entries ++ [snippet])
      | none =>
        if snippet = [] then extractGo rest entries
        else extractGo rest (entries ++ [snippet])

/-- `_extract_memory_entries` (app.py lines 164-183). -/
def extract_memory_entries (raw : List Char) : List (List Char) :=
  if raw = [] then [] else extractGo (splitlines raw) []

/-- Scan up to the next unescaped double-quote (a quote not preceded by a
backslash), returning the characters before it.  Used only to formalise the
claim's reading of the parser; the source has no such scan. -/
def scanUnescaped : List Char → Option (List Char)
  | [] => none
  | '\\' :: c :: t => (scanUnescaped t).map (fun r => '\\' :: c :: r)
  | '"' :: _ => some []
  | c :: t => (scanUnescaped t).map (fun r => c :: r)

/-- The claim's reading of the quoted-value extraction: skip to the first
double-quote after the `"content":` key, then take everything up to the next
unescaped double-quote. -/
def claimQuoted (part0 : List Char) : Option (List Char) :=
  match part0.dropWhile (fun c => c != '"') with
  | '"' :: r => scanUnescaped r
  | _ => none

/-- C2 as literally stated (claim-shaped definition, for comparison with
the source-shaped `extract_memory_entries`). -/
def extract_entries_claim (raw : List Char) : List (List Char) :=
  (splitlines raw).filterMap (fun line =>
    match afterFirst (str "Content Preview:") line with
    | none => none
    | some after =>
      let snippet := pyStrip after
      match afterFirst (str "\"content\":") snippet with
      | some part0 =>
        match claimQuoted part0 with
        | some v => some (pyStrip v)
        | none => if snippet = [] then none else some snippet
      | none => if snippet = [] then none else some snippet)

/-- Per-line extraction as described by the amended claim: take the text
after the marker; after a `"content":` key, strip leading whitespace, drop a
single leading double-quote if present, and take the characters up to the
next double-quote (escaped or not); if no double-quote follows, or there is
no `"content":` key, fall back to the non-empty trimmed snippet. -/
def amendLine (line : List Char) : Option (List Char) :=
  match afterFirst (str "Content Preview:") line with
  | none => none
  | some after =>
    let snippet := pyStrip after
    match afterFirst (str "\"content\":") snippet with
    | some part0 =>
      let part1 := pyLstrip part0
      let part := match part1 with
        | '"' :: t => t
        | _ => part1
      if part.contains '"' then some (pyStrip (part.takeWhile (fun c => c != '"')))
      else if snippet = [] then none else some snippet
    | none => if snippet = [] then none else some snippet

/-- The amended claim's parser: one optional entry per line, in line order. -/
def extract_entries_amended (raw : List Char) : List (List Char) :=
  (splitlines raw).filterMap amendLine

/- ------------------------------------------------------------------ -/
/- Direct-answer extractor: `_answer_from_memory`.                     -/
/- ------------------------------------------------------------------ -/

/-- The character class `[^\n\"\.]` of the three regexes. -/
def okC (c : Char) : Bool := !(c == '\n' || c == '"' || c == '.')

/-- Greedy `\s*([^\n\"\.]+)` with Python backtracking: prefer extending the
whitespace run; if the group cannot start after it, give characters back. -/
def sStarCap : List Char → Option (List Char)
  | [] => none
  | c :: rest =>
    if pySpace c then
      match sStarCap rest with
      | some g => some g
      | none => if okC c then some (c :: rest.takeWhile okC) else none
    else if okC c then some (c :: rest.takeWhile okC) else none

/-- Greedy `\s+([^\n\"\.]+)`. -/
def sPlusCap : List Char → Option (List Char)
  | [] => none
  | c :: rest => if pySpace c then sStarCap rest else none

/-- Match `lit (\s+ lit)*` case-insensitively at the start, returning the
remainder.  The literals start with non-whitespace characters, so the
inner `\s+` are forced to the maximal whitespace runs. -/
def litSeq : List (List Char) → List Char → Option (List Char)
  | [], s => some s
  | [l], s => dropLitCI l s
  | l :: ls, s =>
    match dropLitCI l s with
    | none => none
    | some r =>
      match r with
      | [] => none
      | c :: _ => if pySpace c then litSeq ls (r.dropWhile pySpace) else none

/-- Match the whole pattern `lits₁ \s+ … \s+ litsₙ \s+ ([^\n\"\.]+)`
anchored at the start, returning the captured group. -/
def matchPatAt (lits : List (List Char)) (s : List Char) : Option (List Char) :=
  match litSeq lits s with
  | none => none
  | some r => sPlusCap r

/-- `re.search` for the pattern shape above: leftmost match wins. -/
def searchPat (lits : List (List Char)) : List Char → Option (List Char)
  | [] => none
  | c :: t =>
    match matchPatAt lits (c :: t) with
    | some g => some g
    | none => searchPat lits t

/-- Literal spine of `birthday\s+is\s+([^\n\"\.]+)`. -/
def patBirthday : List (List Char) := [str "birthday", str "is"]

/-- Literal spine of `i\s+live\s+in\s+([^\n\"\.]+)`. -/
def patLive : List (List Char) := [str "i", str "live", str "in"]

/-- Literal spine of `my\s+name\s+is\s+([^\n\"\.]+)`. -/
def patMyName : List (List Char) := [str "my", str "name", str "is"]

/-- Python `"\n".join(memories)`. -/
def joinNl (ms : List (List Char)) : List Char := List.intercalate (str "\n") ms

/-- `_answer_from_memory` (app.py lines 185-204).  Three plain `if`
statements with early `return`: a block that triggers but whose regex does
not match falls through to the next block. -/
def answer_from_memory (query : List Char) (memories : List (List Char)) :
    Option (List Char) :=
  let q := pyLower query
  let blob := joinNl memories
  let b1 : Option (List Char) :=
    if isSub (str "birthday") q then
      match searchPat patBirthday blob with
      | some g =>
        some (str "Your birthday is " ++
              pyReplace (str "oktober") (str "october") (pyStrip g) ++ str ".")
      | none => none
    else none
  match b1 with
  | some a => some a
  | none =>
    let b2 : Option (List Char) :=
      if isSub (str "where do i live") q || isSub (str "where i live") q then
        match searchPat patLive blob with
        | some g => some (str "You live in " ++ pyStrip g ++ str ".")
        | none => none
      else none
    match b2 with
    | some a => some a
    | none =>
      if isSub (str "my name") q then
        match searchPat patMyName blob with
        | some g => some (str "Your name is " ++ pyStrip g ++ str ".")
        | none => none
      else none

/-- The birthday block of `_answer_from_memory` as a stand-alone branch. -/
def birthdayAnswer (q blob : List Char) : Option (List Char) :=
  if isSub (str "birthday") q then
    (searchPat patBirthday blob).map (fun g =>
      str "Your birthday is " ++
      pyReplace (str "oktober") (str "october") (pyStrip g) ++ str ".")
  else none

/-- The residence block of `_answer_from_memory` as a stand-alone branch. -/
def liveAnswer (q blob : List Char) : Option (List Char) :=
  if isSub (str "where do i live") q || isSub (str "where i live") q then
    (searchPat patLive blob).map (fun g => str "You live in " ++ pyStrip g ++ str ".")
  else none

/-- The name block of `_answer_from_memory` as a stand-alone branch. -/
def nameAnswer (q blob : List Char) : Option (List Char) :=
  if isSub (str "my name") q then
    (searchPat patMyName blob).map (fun g => str "Your name is " ++ pyStrip g ++ str ".")
  else none

/-- First-defined-wins choice between optional answers (the early-`return`
sequencing of the three blocks). -/
def firstSome (a b : Option (List Char)) : Option (List Char) :=
  match a with
  | some x => some x
  | none => b

/- ------------------------------------------------------------------ -/
/- Knowledge-base agent: `is_valid_kb_id` and `run_kb_agent`.          -/
/- ------------------------------------------------------------------ -/

/-- `is_valid_kb_id` (app.py lines 87-89): alphanumeric and length ≥ 6
(Python `str.isalnum` is false on the empty string). -/
def is_valid_kb_id (kbId : List Char) : Bool :=
  (decide (kbId ≠ []) && kbId.all Char.isAlphanum) && decide (6 ≤ kbId.length)

/-- First error indicator checked on the retrieve path (app.py line 251). -/
def errInd1 : List Char := str "status': 'error'"

/-- Second error indicator checked on the retrieve path (app.py line 251). -/
def errInd2 : List Char := str "\"status\": \"error\""

/-- Third error indicator checked on the retrieve path (app.py line 251). -/
def errInd3 : List Char := str "No knowledge base ID"

/-- The configuration-error reply of `run_kb_agent` (app.py lines 226-229). -/
def configErrMsg (kbId : List Char) : List Char :=
  str "Knowledge base is not configured. Provide a valid alphanumeric Knowledge Base ID (no hyphens or special characters, got '" ++
  kbId ++ str "')."

/-- The diagnostic reply for a memory-service error (app.py lines 252-255). -/
def diagnosticMsg (kbId result : List Char) : List Char :=
  str "Knowledge base request failed. Please verify the ID, region, and permissions. Current ID: " ++
  kbId ++ str ". Error: " ++ result

/-- The guidance reply for `No results found` (app.py lines 256-260). -/
def noResultsMsg : List Char :=
  str "I don't have any stored information matching that yet. Try phrasing a fact to store first, e.g. 'Remember that my birthday is 12 Oct'."

/-- The guidance reply when no memory entries could be extracted (app.py
line 277). -/
def noFactsMsg : List Char :=
  str "I couldn't extract any relevant stored facts yet. Try storing it explicitly, e.g. 'Remember that my birthday is 12 Oct'."

/-- The reply after a successful store (app.py line 241). -/
def storedMsg : List Char := str "I've stored this information."

/-- Responses of the external collaborators consumed by `run_kb_agent`:
the store/retrieve sub-classifier's LLM output, the memory service's
retrieval text, and the fallback summarizer's output. -/
structure KbEnv where
  actionResp : List Char
  memResp : List Char
  summaryResp : List Char

/-- `run_kb_agent` (app.py lines 222-278), as a function of the external
responses; second component is the trace of external calls made. -/
def run_kb_agent (kbId : List Char) (env : KbEnv) (query : List Char) :
    List Char × List Call :=
  if is_valid_kb_id kbId = false then
    (configErrMsg kbId, [])
  else
    let action_text := pyStrip (pyLower env.actionResp)
    if isSub (str "store") action_text then
      let normalized := normalize_store_content query
      let content := if normalized = [] then query else normalized
      (storedMsg, [Call.useLlm, Call.memStore content])
    else
      let result_str := env.memResp
      if isSub errInd1 result_str || isSub errInd2 result_str || isSub errInd3 result_str then
        (diagnosticMsg kbId result_str, [Call.useLlm, Call.memRetrieve])
      else if isSub (str "No results found") result_str then
        (noResultsMsg, [Call.useLlm, Call.memRetrieve])
      else
        let memories := extract_memory_entries result_str
        match answer_from_memory query memories with
        | some direct => (direct, [Call.useLlm, Call.memRetrieve])
        | none =>
          if memories ≠ [] then
            (env.summaryResp, [Call.useLlm, Call.memRetrieve, Call.summarize])
          else
            (noFactsMsg, [Call.useLlm, Call.memRetrieve])

end Module7

/- ==================================================================== -/
/- Theorems.                                                            -/
/- ==================================================================== -/

namespace Module7

/-- C1: any utterance whose lower-cased text contains one of the fixed
keywords is routed to `knowledgebase` immediately, with an empty call trace
(the LLM fallback is not invoked), whatever the fallback model would have
answered. -/
theorem determine_action_keyword_short_circuit (query llmResp : List Char)
    (h : isSub (str "remember") (pyLower query) = true ∨
         isSub (str "store") (pyLower query) = true ∨
         isSub (str "save") (pyLower query) = true ∨
         isSub (str "record") (pyLower query) = true ∨
         isSub (str "note that") (pyLower query) = true ∨
         isSub (str "what did i tell") (pyLower query) = true ∨
         isSub (str "what do you remember") (pyLower query) = true ∨
         isSub (str "recall") (pyLower query) = true ∨
         isSub (str "retrieve") (pyLower query) = true ∨
         isSub (str "my name is") (pyLower query) = true ∨
         isSub (str "i live") (pyLower query) = true ∨
         isSub (str "my birthday") (pyLower query) = true ∨
         isSub (str "where do i live") (pyLower query) = true ∨
         isSub (str "who am i") (pyLower query) = true) :
    determine_action llmResp query = (str "knowledgebase", []) := by
  have hkb : looks_like_kb_query query = true := by
    unfold looks_like_kb_query kb_keywords
    simp only [List.any_cons, List.any_nil, Bool.or_eq_true]
    tauto
  unfold determine_action
  rw [hkb]
  simp

/-- C1 witness: "remember my name is Alice" contains the keyword `remember`
and is routed to `knowledgebase` with no external call. -/
theorem determine_action_keyword_short_circuit_witness :
    determine_action (str "teacher") (str "remember my name is Alice") =
      (str "knowledgebase", []) :=
  determine_action_keyword_short_circuit (str "remember my name is Alice")
    (str "teacher") (Or.inl (by decide))

/-- C7: on the LLM-fallback path (no keyword matched), the route is
`knowledgebase` exactly when the lower-cased, stripped model output equals
"knowledgebase"; any other output, malformed ones included, yields
`teacher`.  Exactly one LLM call is made either way. -/
theorem determine_action_fallback (query llmResp : List Char)
    (h : looks_like_kb_query query = false) :
    (pyStrip (pyLower llmResp) = str "knowledgebase" →
       determine_action llmResp query = (str "knowledgebase", [Call.useLlm])) ∧
    (pyStrip (pyLower llmResp) ≠ str "knowledgebase" →
       determine_action llmResp query = (str "teacher", [Call.useLlm])) := by
  unfold determine_action
  rw [h]
  constructor
  · intro heq
    simp [heq]
  · intro hne
    simp [hne]

/-- Helper: the head surviving a `dropWhile` fails the predicate. -/
theorem dropWhile_head_not (p : Char → Bool) :
    ∀ (l : List Char) {c : Char} {t : List Char},
      l.dropWhile p = c :: t → p c = false := by
  intro l
  induction l with
  | nil => intro c t h; simp [List.dropWhile] at h
  | cons a l ih =>
    intro c t h
    rw [List.dropWhile_cons] at h
    by_cases ha : p a = true
    · rw [if_pos ha] at h; exact ih h
    · rw [if_neg ha] at h
      cases h
      simpa using ha

/-- Helper: a string whose `strip` is empty is all whitespace. -/
theorem pyStrip_eq_nil_mem {l : List Char} (h : pyStrip l = []) :
    ∀ x ∈ l, pySpace x = true := by
  unfold pyStrip at h
  rw [List.reverse_eq_nil_iff, List.dropWhile_eq_nil_iff] at h
  intro x hx
  have hsplit := List.takeWhile_append_dropWhile (p := pySpace) (l := l)
  rw [← hsplit] at hx
  rcases List.mem_append.mp hx with h1 | h2
  · exact List.mem_takeWhile_imp h1
  · exact h x (List.mem_reverse.mpr h2)

/-- Helper: a non-empty stripped string ends in a non-whitespace character. -/
theorem pyStrip_last {l : List Char} (h : pyStrip l ≠ []) :
    ∃ init c, pyStrip l = init ++ [c] ∧ pySpace c = false := by
  unfold pyStrip at *
  rcases hm : (l.dropWhile pySpace).reverse.dropWhile pySpace with _ | ⟨c, t⟩
  · rw [hm] at h; simp at h
  · refine ⟨t.reverse, c, ?_, dropWhile_head_not _ _ hm⟩
    simp

/-- Helper: a prefix is no longer than the string. -/
theorem isPreL_length : ∀ {p l : List Char}, isPreL p l = true → p.length ≤ l.length := by
  intro p
  induction p with
  | nil => intro l _; simp
  | cons a as ih =>
    intro l h
    cases l with
    | nil => simp [isPreL] at h
    | cons b bs =>
      rw [isPreL] at h
      have h2 := (Bool.and_eq_true _ _).mp h
      simpa using Nat.succ_le_succ (ih h2.2)

/-- Helper: a prefix of equal length is the whole string. -/
theorem isPreL_eq_of_length :
    ∀ {p l : List Char}, isPreL p l = true → p.length = l.length → p = l := by
  intro p
  induction p with
  | nil =>
    intro l _ hlen
    cases l with
    | nil => rfl
    | cons b bs => simp at hlen
  | cons a as ih =>
    intro l h hlen
    cases l with
    | nil => simp [isPreL] at h
    | cons b bs =>
      rw [isPreL] at h
      have h2 := (Bool.and_eq_true _ _).mp h
      have hab : a = b := by simpa using h2.1
      have hlen' : as.length = bs.length := by simpa using hlen
      rw [hab, ih h2.2 hlen']

/-- Helper: only the space character lowers to a space. -/
theorem lowerC_eq_space : ∀ {c : Char}, lowerC c = ' ' → c = ' ' := by
  intro c
  unfold lowerC
  split <;> first | decide | exact id

/-- Helper: the last element survives any `drop` that leaves the list
non-empty. -/
theorem mem_drop_append_last :
    ∀ (n : Nat) (l : List Char) (a : Char), n ≤ l.length → a ∈ (l ++ [a]).drop n := by
  intro n
  induction n with
  | zero => intro l a _; simp
  | succ n ih =>
    intro l a h
    cases l with
    | nil => simp at h
    | cons b bs =>
      simp only [List.cons_append, List.drop_succ_cons]
      exact ih bs a (Nat.le_of_succ_le_succ h)

/-- Helper: every list is a prefix of itself extended. -/
theorem isPreL_append_self : ∀ (n b : List Char), isPreL n (n ++ b) = true := by
  intro n
  induction n with
  | nil => intro b; rfl
  | cons a as ih => intro b; simp [isPreL, ih]

/-- Helper: a prefix is a substring. -/
theorem isSub_of_isPreL {n l : List Char} (h : isPreL n l = true) : isSub n l = true := by
  cases l with
  | nil => simpa [isSub] using h
  | cons c t => simp [isSub, h]

/-- Helper: a substring of `l` is a substring of `a ++ l`. -/
theorem isSub_append_left :
    ∀ (a : List Char) {n l : List Char}, isSub n l = true → isSub n (a ++ l) = true := by
  intro a
  induction a with
  | nil => intro n l h; simpa
  | cons c cs ih =>
    intro n l h
    rw [List.cons_append, isSub, ih h]
    simp

/-- Helper: a list embedded by concatenation is a substring. -/
theorem isSub_sandwich (a n b : List Char) : isSub n (a ++ (n ++ b)) = true :=
  isSub_append_left a (isSub_of_isPreL (isPreL_append_self n b))

/-- Helper: a list with known last element splits off that element. -/
theorem exists_append_single_of_getLast? :
    ∀ {l : List Char} {a : Char}, l.getLast? = some a → ∃ q, l = q ++ [a] := by
  intro l
  induction l with
  | nil => intro a h; simp at h
  | cons x t ih =>
    intro a h
    cases t with
    | nil =>
      simp [List.getLast?] at h
      exact ⟨[], by simp [h]⟩
    | cons y u =>
      rw [List.getLast?_cons_cons] at h
      rcases ih h with ⟨q, hq⟩
      exact ⟨x :: q, by rw [List.cons_append, ← hq]⟩

/-- C7 witness: "What is 2+2?" matches no keyword; the fallback output
" Knowledgebase " (mixed case, padded) routes to `knowledgebase`, while the
malformed output "banana" routes to `teacher`. -/
theorem determine_action_fallback_witness :
    determine_action (str " Knowledgebase ") (str "What is 2+2?") =
        (str "knowledgebase", [Call.useLlm]) ∧
    determine_action (str "banana") (str "What is 2+2?") =
        (str "teacher", [Call.useLlm]) :=
  ⟨(determine_action_fallback (str "What is 2+2?") (str " Knowledgebase ")
      (by decide)).1 (by decide),
   (determine_action_fallback (str "What is 2+2?") (str "banana")
      (by decide)).2 (by decide)⟩

end Module7

namespace Module7

/-- Helper: the prefix loop selects the first matching prefix, in list
order, and leaves the text unchanged when none matches. -/
theorem normGo_eq_find? (text : List Char) :
    ∀ ps : List (List Char),
      normGo text ps =
        (match ps.find? (fun p => isPreL p (pyLower text)) with
          | some p => pyStrip (text.drop p.length)
          | none => text) := by
  intro ps
  induction ps with
  | nil => rfl
  | cons p ps ih =>
    by_cases h : isPreL p (pyLower text) = true
    · rw [normGo, if_pos h,
        List.find?_cons_of_pos (p := fun q => isPreL q (pyLower text)) ps h]
    · rw [normGo, if_neg h, ih,
        List.find?_cons_of_neg (p := fun q => isPreL q (pyLower text)) ps h]

/-- C5: `normalize_store_content` checks the candidate prefixes in the fixed
source order (`find?` over `store_prefixes`, matched case-insensitively
against the stripped input); the first match is stripped by its length from
the original-cased text and the remainder trimmed; with no match the trimmed
original is returned unchanged. -/
theorem normalize_store_content_priority_order (raw : List Char) :
    (∀ p, store_prefixes.find? (fun p => isPreL p (pyLower (pyStrip raw))) = some p →
        normalize_store_content raw = pyStrip ((pyStrip raw).drop p.length)) ∧
    (store_prefixes.find? (fun p => isPreL p (pyLower (pyStrip raw))) = none →
        normalize_store_content raw = pyStrip raw) := by
  unfold normalize_store_content
  rw [normGo_eq_find? (pyStrip raw) store_prefixes]
  constructor
  · intro p hp; rw [hp]
  · intro hp; rw [hp]

/-- C5 witness: "Remember that my birthday is 12 Oct" matches the first
prefix "remember that " and normalizes to "my birthday is 12 Oct". -/
theorem normalize_store_content_priority_order_witness :
    normalize_store_content (str "Remember that my birthday is 12 Oct") =
      str "my birthday is 12 Oct" := by
  rw [(normalize_store_content_priority_order
        (str "Remember that my birthday is 12 Oct")).1
      (str "remember that ") (by decide)]
  decide

/-- Helper: the prefix loop never returns the empty string when the text
ends in a non-whitespace character and every candidate prefix ends in a
space. -/
theorem normGo_ne_nil :
    ∀ (ps : List (List Char)), (∀ p ∈ ps, ∃ q, p = q ++ [' ']) →
      ∀ (init : List Char) (c : Char), pySpace c = false →
        normGo (init ++ [c]) ps ≠ [] := by
  intro ps
  induction ps with
  | nil => intro _ init c _; simp [normGo]
  | cons p ps ih =>
    intro hps init c hc
    rw [normGo]
    by_cases h : isPreL p (pyLower (init ++ [c])) = true
    · rw [if_pos h]
      intro hnil
      by_cases hd : (init ++ [c]).drop p.length = []
      · have hlen1 : p.length ≤ (init ++ [c]).length := by
          have := isPreL_length h
          simpa [pyLower] using this
        have hlen2 : (init ++ [c]).length ≤ p.length := List.drop_eq_nil_iff.mp hd
        have hlen : p.length = (pyLower (init ++ [c])).length := by
          simp only [pyLower, List.length_map]
          omega
        have hpe : p = pyLower (init ++ [c]) := isPreL_eq_of_length h hlen
        rcases hps p (List.mem_cons_self p ps) with ⟨q, hq⟩
        have hsplit : pyLower (init ++ [c]) = pyLower init ++ [lowerC c] := by
          simp [pyLower]
        rw [hsplit, hq] at hpe
        have hlast : (' ' : Char) = lowerC c := by
          have := congrArg List.getLast? hpe
          simpa using this
        have : c = ' ' := lowerC_eq_space hlast.symm
        rw [this] at hc
        simp [pySpace] at hc
      · have hall := pyStrip_eq_nil_mem hnil
        have hmem : c ∈ (init ++ [c]).drop p.length := by
          apply mem_drop_append_last
          have hlt : p.length < (init ++ [c]).length := by
            by_contra hge
            push_neg at hge
            exact hd (List.drop_eq_nil_iff.mpr hge)
          simp only [List.length_append, List.length_cons, List.length_nil] at hlt
          omega
        have htrue := hall c hmem
        rw [hc] at htrue
        exact absurd htrue (by decide)
    · rw [if_neg h]
      exact ih (fun p hp => hps p (List.mem_cons_of_mem _ hp)) init c hc

/-- C6: `normalize_store_content` returns a non-empty string whenever its
input is not empty or whitespace-only, and on the store path of
`run_kb_agent` (with the guaranteed non-empty chat query) the content handed
to the memory service is never empty, because of the fallback to the raw
query text. -/
theorem normalize_store_content_nonempty :
    (∀ raw, pyStrip raw ≠ [] → normalize_store_content raw ≠ []) ∧
    (∀ kbId env query, query ≠ ([] : List Char) →
      ∀ content, Call.memStore content ∈ (run_kb_agent kbId env query).2 →
        content ≠ []) := by
  have hmain : ∀ raw, pyStrip raw ≠ [] → normalize_store_content raw ≠ [] := by
    intro raw hraw
    rcases pyStrip_last hraw with ⟨init, c, heq, hc⟩
    unfold normalize_store_content
    rw [heq]
    apply normGo_ne_nil store_prefixes ?_ init c hc
    intro p hp
    apply exists_append_single_of_getLast?
    have hall : store_prefixes.all (fun p => p.getLast? == some ' ') = true := by decide
    exact eq_of_beq (List.all_eq_true.mp hall p hp)
  refine ⟨hmain, ?_⟩
  intro kbId env query hq content hmem
  simp only [run_kb_agent] at hmem
  by_cases hvalid : is_valid_kb_id kbId = false
  · rw [if_pos hvalid] at hmem
    simp at hmem
  · rw [if_neg hvalid] at hmem
    by_cases hstore : isSub (str "store") (pyStrip (pyLower env.actionResp)) = true
    · rw [if_pos hstore] at hmem
      simp only [List.mem_cons, List.mem_singleton] at hmem
      rcases hmem with h | h | h
      · exact absurd h (by simp)
      · have hcontent : content =
            (if normalize_store_content query = [] then query
             else normalize_store_content query) := by
          exact (Call.memStore.injEq _ _).mp h
        rw [hcontent]
        by_cases hnorm : normalize_store_content query = []
        · rw [if_pos hnorm]; exact hq
        · rw [if_neg hnorm]; exact hnorm
      · exact absurd h (by simp)
    · rw [if_neg hstore] at hmem
      by_cases herr : (isSub errInd1 env.memResp || isSub errInd2 env.memResp ||
          isSub errInd3 env.memResp) = true
      · rw [if_pos herr] at hmem
        simp at hmem
      · rw [if_neg herr] at hmem
        by_cases hnores : isSub (str "No results found") env.memResp = true
        · rw [if_pos hnores] at hmem
          simp at hmem
        · rw [if_neg hnores] at hmem
          rcases hans : answer_from_memory query (extract_memory_entries env.memResp)
            with _ | d
          · rw [hans] at hmem
            by_cases hm : extract_memory_entries env.memResp = []
            · simp [hm] at hmem
            · simp [hm] at hmem
          · rw [hans] at hmem
            simp at hmem

end Module7

namespace Module7

/-- C6 witness: "remember me" strips to a non-empty string and normalizes to
a non-empty string; storing the query "x" via `run_kb_agent` passes the
non-empty content "x" to the memory service. -/
theorem normalize_store_content_nonempty_witness :
    normalize_store_content (str "remember me") ≠ [] ∧
    str "x" ≠ ([] : List Char) :=
  ⟨normalize_store_content_nonempty.1 (str "remember me") (by decide),
   normalize_store_content_nonempty.2 (str "demokb123")
     ⟨str "store", str "", str ""⟩ (str "x") (by decide) (str "x") (by decide)⟩

/-- Helper: the append-and-continue loop of `_extract_memory_entries` is the
per-line partial function mapped over the lines, keeping line order and
duplicates. -/
theorem extractGo_eq_filterMap :
    ∀ (lines : List (List Char)) (acc : List (List Char)),
      extractGo lines acc = acc ++ lines.filterMap amendLine := by
  intro lines
  induction lines with
  | nil => intro acc; simp [extractGo]
  | cons line rest ih =>
    intro acc
    rw [List.filterMap_cons]
    cases hA : afterFirst (str "Content Preview:") line with
    | none =>
      simp only [extractGo, amendLine, hA]
      exact ih acc
    | some after =>
      simp only [extractGo, amendLine, hA]
      cases hB : afterFirst (str "\"content\":") (pyStrip after) with
      | none =>
        simp only [hB]
        by_cases hS : pyStrip after = []
        · simp only [if_pos hS]
          exact ih acc
        · simp only [if_neg hS]
          rw [ih (acc ++ [pyStrip after])]
          simp
      | some part0 =>
        simp only [hB]
        by_cases hQ : (match pyLstrip part0 with
            | '"' :: t => t
            | _ => pyLstrip part0).contains '"' = true
        · simp only [if_pos hQ]
          rw [ih (acc ++ [_])]
          simp
        · simp only [if_neg hQ]
          by_cases hS : pyStrip after = []
          · simp only [if_pos hS]
            exact ih acc
          · simp only [if_neg hS]
            rw [ih (acc ++ [pyStrip after])]
            simp

/-- C2 amended: `extract_memory_entries` maps each line independently, in
original order, keeping duplicates and skipping lines without the marker or
with an empty trimmed snippet; on a line with a `"content":` key it strips
leading whitespace, drops one leading double-quote if present, and takes the
characters up to the next double-quote, escaped or not (no quote-skipping
beyond the single optional leading quote, no unescaped-quote scan); if no
double-quote follows, it falls back to the whole trimmed snippet. -/
theorem extract_memory_entries_eq_amended (raw : List Char) :
    extract_memory_entries raw = extract_entries_amended raw := by
  unfold extract_memory_entries extract_entries_amended
  by_cases h : raw = []
  · rw [if_pos h, h]
    rfl
  · rw [if_neg h, extractGo_eq_filterMap (splitlines raw) []]
    simp

/-- C2 counterexample: on the line `Content Preview: {"content": "a\"b"}`
the code stops at the first double-quote after the opening one, even though
it is escaped, extracting `a\`; the claim's unescaped-quote reading would
extract `a\"b`.  (The braces and quotes are part of the text.) -/
theorem extract_memory_entries_claim_counterexample :
    extract_memory_entries (str "Content Preview: \x7b\"content\": \"a\\\"b\"\x7d") =
        [str "a\\"] ∧
    extract_entries_claim (str "Content Preview: \x7b\"content\": \"a\\\"b\"\x7d") =
        [str "a\\\"b"] ∧
    extract_memory_entries (str "Content Preview: \x7b\"content\": \"a\\\"b\"\x7d") ≠
      extract_entries_claim (str "Content Preview: \x7b\"content\": \"a\\\"b\"\x7d") :=
  ⟨by decide, by decide, by decide⟩

/-- C10: a "Content Preview:" line whose JSON-ish snippet has an empty
quoted content value makes `_extract_memory_entries` append the empty
string, so the result is not a list of non-empty strings. -/
theorem extract_memory_entries_empty_entry :
    extract_memory_entries (str "Content Preview: \x7b\"content\": \"\"\x7d") = [str ""] ∧
    ([] : List Char) ∈ extract_memory_entries (str "Content Preview: \x7b\"content\": \"\"\x7d") :=
  ⟨by decide, by decide⟩

end Module7

namespace Module7

/-- C3: when the lower-cased query contains "birthday" and the
case-insensitive pattern `birthday\s+is\s+([^\n\"\.]+)` matches the
newline-joined entries with captured group `g`, `_answer_from_memory`
returns "Your birthday is {value}." where value is `g` trimmed with every
occurrence of "oktober" replaced by "october"; and with an empty entry list
it returns nothing, for every query. -/
theorem answer_from_memory_birthday (query : List Char)
    (memories : List (List Char)) (g : List Char)
    (hq : isSub (str "birthday") (pyLower query) = true)
    (hm : searchPat patBirthday (joinNl memories) = some g) :
    answer_from_memory query memories =
      some (str "Your birthday is " ++
            pyReplace (str "oktober") (str "october") (pyStrip g) ++ str ".") ∧
    (∀ query2, answer_from_memory query2 [] = none) := by
  constructor
  · simp only [answer_from_memory]
    rw [if_pos hq, hm]
  · intro query2
    have h1 : searchPat patBirthday (joinNl []) = none := by decide
    have h2 : searchPat patLive (joinNl []) = none := by decide
    have h3 : searchPat patMyName (joinNl []) = none := by decide
    simp only [answer_from_memory, h1, h2, h3]
    simp

/-- C3 witness: the spec's worked example, with the misspelling
normalized. -/
theorem answer_from_memory_birthday_witness :
    answer_from_memory (str "what is my birthday") [str "my birthday is 12 oktober"] =
      some (str "Your birthday is 12 october.") ∧
    answer_from_memory (str "what is my birthday") [] = none := by
  have h := answer_from_memory_birthday (str "what is my birthday")
    [str "my birthday is 12 oktober"] (str "12 oktober") (by decide) (by decide)
  exact ⟨by rw [h.1]; decide, h.2 (str "what is my birthday")⟩

/-- C4 counterexample: in "my birthday, where do i live" the birthday
trigger appears first, its pattern fails on the entries, and the answer is
nevertheless produced by the later residence block — so the first question
type whose trigger appears does not win, and later blocks are consulted. -/
theorem answer_from_memory_claim_counterexample :
    isSub (str "birthday") (pyLower (str "my birthday, where do i live")) = true ∧
    searchPat patBirthday (joinNl [str "i live in Delft"]) = none ∧
    answer_from_memory (str "my birthday, where do i live") [str "i live in Delft"] =
      some (str "You live in Delft.") :=
  ⟨by decide, by decide, by decide⟩

/-- C4 amended: the three blocks are tried in source order (birthday, then
residence, then name); a block produces an answer only when both its query
trigger and its blob pattern match; a block whose trigger matches but whose
pattern fails falls through to the next block; the first block to produce an
answer wins, and at most one answer is produced per call (the result is a
single optional string). -/
theorem answer_from_memory_fallthrough (query : List Char)
    (memories : List (List Char)) :
    answer_from_memory query memories =
      firstSome (birthdayAnswer (pyLower query) (joinNl memories))
        (firstSome (liveAnswer (pyLower query) (joinNl memories))
          (nameAnswer (pyLower query) (joinNl memories))) := by
  simp only [answer_from_memory, birthdayAnswer, liveAnswer, nameAnswer, firstSome]
  by_cases h1 : isSub (str "birthday") (pyLower query) = true <;>
  by_cases h2 : (isSub (str "where do i live") (pyLower query) ||
      isSub (str "where i live") (pyLower query)) = true <;>
  by_cases h3 : isSub (str "my name") (pyLower query) = true <;>
    simp only [h1, h2, h3, if_true, if_false, if_pos, if_neg, Bool.not_eq_true] <;>
    cases searchPat patBirthday (joinNl memories) <;>
    cases searchPat patLive (joinNl memories) <;>
    cases searchPat patMyName (joinNl memories) <;>
    simp [h1, h2, h3]

end Module7

namespace Module7

/-- C8: with a valid knowledge-base id, the store/retrieve sub-classifier
branches on substring containment: any lower-cased trimmed LLM response
containing "store" anywhere (so also unintended tokens such as "storeroom")
takes the store path (content stored, no retrieval); any response not
containing "store" takes the retrieve path (a retrieval happens, nothing is
stored). -/
theorem run_kb_agent_store_substring (kbId : List Char) (env : KbEnv)
    (query : List Char) (hvalid : is_valid_kb_id kbId = true) :
    (isSub (str "store") (pyStrip (pyLower env.actionResp)) = true →
      (run_kb_agent kbId env query).1 = storedMsg ∧
      (∃ c, Call.memStore c ∈ (run_kb_agent kbId env query).2) ∧
      Call.memRetrieve ∉ (run_kb_agent kbId env query).2) ∧
    (isSub (str "store") (pyStrip (pyLower env.actionResp)) = false →
      Call.memRetrieve ∈ (run_kb_agent kbId env query).2 ∧
      ∀ c, Call.memStore c ∉ (run_kb_agent kbId env query).2) := by
  have hnf : ¬ is_valid_kb_id kbId = false := by rw [hvalid]; simp
  constructor
  · intro hstore
    simp only [run_kb_agent]
    rw [if_neg hnf, if_pos hstore]
    refine ⟨rfl, ⟨if normalize_store_content query = [] then query
                 else normalize_store_content query, ?_⟩, ?_⟩
    · simp
    · simp
  · intro hstore
    have hstore' : ¬ isSub (str "store") (pyStrip (pyLower env.actionResp)) = true := by
      rw [hstore]; simp
    simp only [run_kb_agent]
    rw [if_neg hnf, if_neg hstore']
    by_cases herr : (isSub errInd1 env.memResp || isSub errInd2 env.memResp ||
        isSub errInd3 env.memResp) = true
    · rw [if_pos herr]; simp
    · rw [if_neg herr]
      by_cases hnores : isSub (str "No results found") env.memResp = true
      · rw [if_pos hnores]; simp
      · rw [if_neg hnores]
        rcases hans : answer_from_memory query (extract_memory_entries env.memResp)
          with _ | d
        · by_cases hm : extract_memory_entries env.memResp = []
          · simp [hm]
          · simp [hm]
        · simp

/-- C8 witness: "storeroom" contains "store" and stores; "retrieve" does
not contain "store" and retrieves. -/
theorem run_kb_agent_store_substring_witness :
    (run_kb_agent (str "demokb123") ⟨str "storeroom", str "", str ""⟩ (str "q")).1 =
      storedMsg ∧
    Call.memRetrieve ∈
      (run_kb_agent (str "demokb123") ⟨str "retrieve", str "", str ""⟩ (str "q")).2 :=
  ⟨((run_kb_agent_store_substring (str "demokb123") ⟨str "storeroom", str "", str ""⟩
      (str "q") (by decide)).1 (by decide)).1,
   ((run_kb_agent_store_substring (str "demokb123") ⟨str "retrieve", str "", str ""⟩
      (str "q") (by decide)).2 (by decide)).1⟩

/-- C9 counterexample: the response text "status: error" contains the
claim's error indicator `status: error` verbatim, yet `run_kb_agent` does
not return the diagnostic (the code only recognises `status': 'error'`,
`"status": "error"` and `No knowledge base ID`); it falls through to the
could-not-extract guidance instead. -/
theorem run_kb_agent_error_indicator_counterexample :
    isSub (str "status: error") (str "status: error") = true ∧
    run_kb_agent (str "demokb123") ⟨str "retrieve", str "status: error", str ""⟩
        (str "q") = (noFactsMsg, [Call.useLlm, Call.memRetrieve]) ∧
    (run_kb_agent (str "demokb123") ⟨str "retrieve", str "status: error", str ""⟩
        (str "q")).1 ≠ diagnosticMsg (str "demokb123") (str "status: error") :=
  ⟨by decide, by decide, by decide⟩

/-- C9 amended: on the retrieve path, if the memory response contains one of
the code's error indicators (`status': 'error'`, `"status": "error"` or
`No knowledge base ID`) then `run_kb_agent` returns the diagnostic string,
which contains the knowledge-base id and the raw response text, after
exactly one retrieval (no retry) — even when `No results found` is also
present, so the error check takes precedence; if no error indicator is
present and the response contains `No results found`, the guidance string is
returned instead, again after exactly one retrieval. -/
theorem run_kb_agent_retrieve_errors (kbId : List Char) (env : KbEnv)
    (query : List Char) (hvalid : is_valid_kb_id kbId = true)
    (hret : isSub (str "store") (pyStrip (pyLower env.actionResp)) = false) :
    ((isSub errInd1 env.memResp || isSub errInd2 env.memResp ||
        isSub errInd3 env.memResp) = true →
      run_kb_agent kbId env query =
        (diagnosticMsg kbId env.memResp, [Call.useLlm, Call.memRetrieve]) ∧
      isSub kbId (diagnosticMsg kbId env.memResp) = true ∧
      isSub env.memResp (diagnosticMsg kbId env.memResp) = true) ∧
    ((isSub errInd1 env.memResp || isSub errInd2 env.memResp ||
        isSub errInd3 env.memResp) = false →
      isSub (str "No results found") env.memResp = true →
      run_kb_agent kbId env query = (noResultsMsg, [Call.useLlm, Call.memRetrieve])) := by
  have hnf : ¬ is_valid_kb_id kbId = false := by rw [hvalid]; simp
  have hstore' : ¬ isSub (str "store") (pyStrip (pyLower env.actionResp)) = true := by
    rw [hret]; simp
  constructor
  · intro herr
    refine ⟨?_, ?_, ?_⟩
    · simp only [run_kb_agent]
      rw [if_neg hnf, if_neg hstore', if_pos herr]
    · have := isSub_sandwich
        (str "Knowledge base request failed. Please verify the ID, region, and permissions. Current ID: ")
        kbId (str ". Error: " ++ env.memResp)
      simpa [diagnosticMsg, List.append_assoc] using this
    · have := isSub_sandwich
        (str "Knowledge base request failed. Please verify the ID, region, and permissions. Current ID: " ++
          kbId ++ str ". Error: ") env.memResp []
      simpa [diagnosticMsg, List.append_assoc] using this
  · intro herr hnores
    have herr' : ¬ (isSub errInd1 env.memResp || isSub errInd2 env.memResp ||
        isSub errInd3 env.memResp) = true := by rw [herr]; simp
    simp only [run_kb_agent]
    rw [if_neg hnf, if_neg hstore', if_neg herr', if_pos hnores]

/-- C9 witness: a response carrying the real indicator `'status': 'error'`
yields the diagnostic; a clean `No results found` response yields the
guidance string. -/
theorem run_kb_agent_retrieve_errors_witness :
    run_kb_agent (str "demokb123")
        ⟨str "retrieve", str "'status': 'error' x", str ""⟩ (str "q") =
      (diagnosticMsg (str "demokb123") (str "'status': 'error' x"),
       [Call.useLlm, Call.memRetrieve]) ∧
    run_kb_agent (str "demokb123")
        ⟨str "retrieve", str "No results found", str ""⟩ (str "q") =
      (noResultsMsg, [Call.useLlm, Call.memRetrieve]) :=
  ⟨((run_kb_agent_retrieve_errors (str "demokb123")
      ⟨str "retrieve", str "'status': 'error' x", str ""⟩ (str "q")
      (by decide) (by decide)).1 (by decide)).1,
   (run_kb_agent_retrieve_errors (str "demokb123")
      ⟨str "retrieve", str "No results found", str ""⟩ (str "q")
      (by decide) (by decide)).2 (by decide) (by decide)⟩

end Module7
